import Mathlib

/-!
Verification of the FairGrade front end.

This file embeds the grading pipeline of the repository (rubric parsing,
per-criterion grading with its fallback score, per-file aggregation), the
grading-page form validation, and the localStorage-backed authentication
context, and proves the specified properties about them.

Modelling conventions:
- JavaScript strings are lists of characters (abbreviation Str below).
- JavaScript numbers are modelled as Nat or as exact rationals wherever the
  computation stays exact in IEEE double arithmetic at the magnitudes the
  program produces.  The one operation where IEEE rounding visibly changes a
  result at realistic inputs, the fallback expression with the constant 0.7
  inside gradeCriterion, is modelled bit-exactly (floorMul07 below).  The
  special values produced by dividing by zero are modelled explicitly by the
  TotalScore type.
- parseInt on a nonempty run of decimal digits is modelled as the exact
  decimal value (exact in JS below 2 to the 53, far above any rubric weight).
- Network calls, Date.now and Math.random are modelled as oracle parameters:
  the functions that perform them take the outcome as an argument.
- JSON.stringify followed by JSON.parse is modelled as the identity on the
  structured value; localStorage is an association list from keys to the
  structured values the program stores (StoreVal below).
-/

namespace FairGrade

/-- JavaScript strings, modelled as lists of characters. -/
abbrev Str := List Char

/-- Characters matched by the regex class backslash-s and removed by
String.prototype.trim: tab, line feed, vertical tab, form feed, carriage
return, space, no-break space, ogham space mark, the en-quad..hair-space
range, line separator, paragraph separator, narrow no-break space, medium
mathematical space, ideographic space and the byte order mark. -/
def isJsWs (c : Char) : Bool :=
  c.toNat == 9 || c.toNat == 10 || c.toNat == 11 || c.toNat == 12 ||
  c.toNat == 13 || c.toNat == 32 || c.toNat == 160 || c.toNat == 5760 ||
  (decide (8192 ≤ c.toNat) && decide (c.toNat ≤ 8202)) ||
  c.toNat == 8232 || c.toNat == 8233 || c.toNat == 8239 ||
  c.toNat == 8287 || c.toNat == 12288 || c.toNat == 65279

/-- Line terminators: the characters that the regex dot does not match
(line feed, carriage return, line separator, paragraph separator). -/
def isLineTerm (c : Char) : Bool :=
  c.toNat == 10 || c.toNat == 13 || c.toNat == 8232 || c.toNat == 8233

/-- JavaScript String.prototype.trim. -/
def trimChars (cs : Str) : Str :=
  ((cs.dropWhile isJsWs).reverse.dropWhile isJsWs).reverse

/-- The suffix of a string after its last line terminator (the whole string
when it contains none). -/
def afterLastTerm (cs : Str) : Str :=
  (cs.reverse.takeWhile (fun c => !isLineTerm c)).reverse

/-- The string with trailing regex whitespace removed. -/
def rtrimWs (cs : Str) : Str :=
  (cs.reverse.dropWhile isJsWs).reverse

/-- JavaScript String.prototype.split with a newline separator, as used by
parseRubric: rubricText.split with a newline argument. -/
def splitOnNewline : Str → List Str
  | [] => [[]]
  | c :: cs =>
    if c = '\n' then [] :: splitOnNewline cs
    else
      match splitOnNewline cs with
      | [] => [[c]]
      | l :: ls => (c :: l) :: ls

/-- Numeric value of a decimal digit character. -/
def digitVal (c : Char) : Nat := c.toNat - 48

/-- parseInt with radix 10 on a nonempty string of decimal digits, modelled
as the exact decimal value. -/
def decimalVal (ds : Str) : Nat :=
  ds.foldl (fun acc c => 10 * acc + digitVal c) 0

/-- One rubric criterion as produced by parseRubric in the source:
an object with a name and a weight. -/
structure Criterion where
  name : Str
  weight : Nat
deriving DecidableEq

/-- Attempt of the parenthesised part of the rubric regex at the head of the
string: an open paren, a nonempty greedy run of decimal digits, then a
percent sign and a close paren.  The greedy run of the regex digit class can
only be followed by the literal percent sign when the maximal digit run is,
so this single test is exactly when the tail of the regex matches here. -/
def parenWeight (cs : Str) : Option Nat :=
  match cs with
  | [] => none
  | c :: rest =>
    if c = '(' ∧ rest.takeWhile Char.isDigit ≠ [] ∧
        (rest.dropWhile Char.isDigit).take 2 = ['%', ')']
    then some (decimalVal (rest.takeWhile Char.isDigit))
    else none

/-- Leftmost position at which the parenthesised part of the rubric regex
matches: returns the text before that position and the parsed weight. -/
def findParen : Str → Option (Str × Nat)
  | [] => none
  | c :: cs =>
    match parenWeight (c :: cs) with
    | some w => some ([], w)
    | none =>
      match findParen cs with
      | some pw => some (c :: pw.1, pw.2)
      | none => none

/-- Capture group 1 of the rubric regex when the parenthesised part matches
first right after the text pre.  The lazy leading dot-star cannot match line
terminators while the following whitespace-star can, so the group starts
after the last line terminator that precedes the trailing whitespace run of
pre, and ends where that trailing whitespace run starts. -/
def matchGroup1 (pre : Str) : Str :=
  afterLastTerm (rtrimWs pre)

/-- The per-line step of parseRubric in the source: match the line against
the rubric regex; on a match build the criterion from the trimmed capture
group 1 and the parsed decimal weight, otherwise null. -/
def matchLine (line : Str) : Option Criterion :=
  match findParen line with
  | some pw => some ⟨trimChars (matchGroup1 pw.1), pw.2⟩
  | none => none

/-- parseRubric from the source: split the rubric text on newlines, map each
line through the regex match, and filter out the lines that did not match. -/
def parseRubric (text : Str) : List Criterion :=
  ((splitOnNewline text).map matchLine).filterMap id

/-! ### Lemmas about the rubric regex -/

theorem takeWhile_append_stop {α : Type} (p : α → Bool) :
    ∀ (ds : List α) (x : α) (t : List α), (∀ a ∈ ds, p a = true) → p x = false →
      (ds ++ x :: t).takeWhile p = ds ∧ (ds ++ x :: t).dropWhile p = x :: t
  | [], x, t, _, hx => by
    simp [List.takeWhile_cons, List.dropWhile_cons, hx]
  | d :: ds, x, t, h, hx => by
    have hd : p d = true := h d (by simp)
    have ih := takeWhile_append_stop p ds x t (fun a ha => h a (by simp [ha])) hx
    simp [List.takeWhile_cons, List.dropWhile_cons, hd, ih.1, ih.2]

theorem parenWeight_eq_some {cs : Str} {w : Nat} :
    parenWeight cs = some w ↔
      ∃ ds rest, cs = '(' :: (ds ++ '%' :: ')' :: rest) ∧ ds ≠ [] ∧
        (∀ d ∈ ds, d.isDigit = true) ∧ w = decimalVal ds := by
  constructor
  · intro h
    cases cs with
    | nil => simp [parenWeight] at h
    | cons c rest =>
      simp only [parenWeight] at h
      by_cases hc : c = '(' ∧ rest.takeWhile Char.isDigit ≠ [] ∧
          (rest.dropWhile Char.isDigit).take 2 = ['%', ')']
      · rw [if_pos hc] at h
        obtain ⟨hc1, hne, htake⟩ := hc
        refine ⟨rest.takeWhile Char.isDigit, (rest.dropWhile Char.isDigit).drop 2,
          ?_, hne, ?_, ?_⟩
        · subst hc1
          congr 1
          conv_lhs => rw [← List.takeWhile_append_dropWhile (p := Char.isDigit) (l := rest)]
          congr 1
          conv_lhs => rw [← List.take_append_drop 2 (rest.dropWhile Char.isDigit)]
          rw [htake]
          rfl
        · intro d hd
          exact List.mem_takeWhile_imp hd
        · simpa using h.symm
      · rw [if_neg hc] at h
        simp at h
  · rintro ⟨ds, rest, rfl, hne, hdig, rfl⟩
    have hstop := takeWhile_append_stop Char.isDigit ds '%' (')' :: rest) hdig (by decide)
    have hcond : ('(' : Char) = '(' ∧ (ds ++ '%' :: ')' :: rest).takeWhile Char.isDigit ≠ [] ∧
        ((ds ++ '%' :: ')' :: rest).dropWhile Char.isDigit).take 2 = ['%', ')'] :=
      ⟨rfl, by rw [hstop.1]; exact hne, by rw [hstop.2]; rfl⟩
    show (if ('(' : Char) = '(' ∧ (ds ++ '%' :: ')' :: rest).takeWhile Char.isDigit ≠ [] ∧
          ((ds ++ '%' :: ')' :: rest).dropWhile Char.isDigit).take 2 = ['%', ')']
        then some (decimalVal ((ds ++ '%' :: ')' :: rest).takeWhile Char.isDigit))
        else none) = some (decimalVal ds)
    rw [if_pos hcond, hstop.1]

theorem findParen_eq_some :
    ∀ (cs : Str) (pre : Str) (w : Nat), findParen cs = some (pre, w) →
      ∃ suf, cs = pre ++ suf ∧ parenWeight suf = some w ∧
        ∀ n, n < pre.length → parenWeight (cs.drop n) = none
  | [], pre, w, h => by simp [findParen] at h
  | c :: cs, pre, w, h => by
    rw [findParen] at h
    rcases hp : parenWeight (c :: cs) with _ | w0
    · rw [hp] at h
      rcases hf : findParen cs with _ | pw
      · rw [hf] at h
        simp at h
      · rw [hf] at h
        simp only [Option.some.injEq, Prod.mk.injEq] at h
        obtain ⟨suf, hcs, hpw, hfirst⟩ := findParen_eq_some cs pw.1 pw.2 hf
        refine ⟨suf, ?_, ?_, ?_⟩
        · rw [← h.1, List.cons_append, ← hcs]
        · rw [← h.2]
          exact hpw
        · intro n hn
          cases n with
          | zero => simpa using hp
          | succ m =>
            have hm : m < pw.1.length := by
              have := hn
              rw [← h.1] at this
              simpa using this
            simpa using hfirst m hm
    · rw [hp] at h
      simp only [Option.some.injEq, Prod.mk.injEq] at h
      refine ⟨c :: cs, by simp [← h.1], by rw [← h.2]; exact hp, ?_⟩
      intro n hn
      rw [← h.1] at hn
      simp at hn

theorem findParen_eq_none :
    ∀ (cs : Str), findParen cs = none → ∀ n, parenWeight (cs.drop n) = none
  | [], _, n => by
    rw [List.drop_nil]
    simp [parenWeight]
  | c :: cs, h, n => by
    rw [findParen] at h
    rcases hp : parenWeight (c :: cs) with _ | w0
    · rcases hf : findParen cs with _ | pw
      · cases n with
        | zero => simpa using hp
        | succ m => simpa using findParen_eq_none cs hf m
      · rw [hp, hf] at h
        simp at h
    · rw [hp] at h
      simp at h

/-- C1 (amended).  parseRubric maps the newline-split lines of the rubric
text through the single regex match and keeps the matches, in line order.  A
line produces some criterion exactly when it decomposes around an open
paren, a nonempty run of decimal digits, a percent sign and a close paren;
the produced criterion takes its weight from the decimal value of the digit
run at the leftmost such decomposition, and its name from capture group 1
(the text between the last line terminator preceding the parenthesised
percentage and that percentage), trimmed.  No condition on the sum of the
weights is checked anywhere: the final conjunct exhibits a rubric whose
weights sum to 150 that parses without complaint. -/
theorem parseRubric_spec :
    (∀ text, parseRubric text = (splitOnNewline text).filterMap matchLine) ∧
    (∀ line c, matchLine line = some c →
      ∃ pre ds rest,
        line = pre ++ '(' :: (ds ++ '%' :: ')' :: rest) ∧ ds ≠ [] ∧
        (∀ d ∈ ds, d.isDigit = true) ∧
        c.name = trimChars (matchGroup1 pre) ∧ c.weight = decimalVal ds ∧
        (∀ pre2 ds2 rest2, line = pre2 ++ '(' :: (ds2 ++ '%' :: ')' :: rest2) →
          ds2 ≠ [] → (∀ d ∈ ds2, d.isDigit = true) → pre.length ≤ pre2.length)) ∧
    (∀ line pre ds rest, line = pre ++ '(' :: (ds ++ '%' :: ')' :: rest) →
      ds ≠ [] → (∀ d ∈ ds, d.isDigit = true) → ∃ c, matchLine line = some c) ∧
    (parseRubric ("Content (60%)\nStyle (90%)".toList) =
      [⟨"Content".toList, 60⟩, ⟨"Style".toList, 90⟩] ∧ 60 + 90 ≠ 100) := by
  refine ⟨?_, ?_, ?_, by decide⟩
  · intro text
    rw [parseRubric, List.filterMap_map, Function.id_comp]
  · intro line c h
    rw [matchLine] at h
    rcases hf : findParen line with _ | pw
    · rw [hf] at h
      simp at h
    · rw [hf] at h
      simp only [Option.some.injEq] at h
      obtain ⟨suf, hline, hpw, hfirst⟩ := findParen_eq_some line pw.1 pw.2 hf
      obtain ⟨ds, rest, hsuf, hne, hdig, hw⟩ := parenWeight_eq_some.mp hpw
      refine ⟨pw.1, ds, rest, by rw [hline, hsuf], hne, hdig, by rw [← h], by rw [← h, hw], ?_⟩
      intro pre2 ds2 rest2 hline2 hne2 hdig2
      by_contra hlt
      have h2 : parenWeight (line.drop pre2.length) = none :=
        hfirst pre2.length (Nat.lt_of_not_le hlt)
      have h3 : line.drop pre2.length = '(' :: (ds2 ++ '%' :: ')' :: rest2) := by
        rw [hline2, List.drop_left]
      rw [h3] at h2
      have h4 : parenWeight ('(' :: (ds2 ++ '%' :: ')' :: rest2)) =
          some (decimalVal ds2) :=
        parenWeight_eq_some.mpr ⟨ds2, rest2, rfl, hne2, hdig2, rfl⟩
      rw [h2] at h4
      simp at h4
  · intro line pre ds rest hline hne hdig
    rcases hf : findParen line with _ | pw
    · have h2 : parenWeight (line.drop pre.length) = none :=
        findParen_eq_none line hf pre.length
      have h3 : line.drop pre.length = '(' :: (ds ++ '%' :: ')' :: rest) := by
        rw [hline, List.drop_left]
      rw [h3] at h2
      have h4 : parenWeight ('(' :: (ds ++ '%' :: ')' :: rest)) = some (decimalVal ds) :=
        parenWeight_eq_some.mpr ⟨ds, rest, rfl, hne, hdig, rfl⟩
      rw [h2] at h4
      simp at h4
    · exact ⟨⟨trimChars (matchGroup1 pw.1), pw.2⟩, by rw [matchLine, hf]⟩

/-- C1 counterexample.  On the single-line rubric text with a stray carriage
return, the regex dot does not cross the carriage return, so the produced
name is the text after it; the claim as stated would make the name the whole
text before the parenthesised percentage, trimmed of surrounding whitespace,
which differs. -/
theorem matchLine_carriageReturn_cex :
    matchLine ("ab\rcd (40%)".toList) = some ⟨"cd".toList, 40⟩ ∧
    trimChars ("ab\rcd".toList) ≠ "cd".toList := by
  decide

/-- C1 witness: the amended statement applied to a concrete matching line. -/
theorem parseRubric_spec_witness :
    ∃ pre ds rest,
      ("Essay (40%)".toList : Str) = pre ++ '(' :: (ds ++ '%' :: ')' :: rest) ∧ ds ≠ [] ∧
      (∀ d ∈ ds, d.isDigit = true) ∧
      (⟨"Essay".toList, 40⟩ : Criterion).name = trimChars (matchGroup1 pre) ∧
      (⟨"Essay".toList, 40⟩ : Criterion).weight = decimalVal ds ∧
      (∀ pre2 ds2 rest2,
        ("Essay (40%)".toList : Str) = pre2 ++ '(' :: (ds2 ++ '%' :: ')' :: rest2) →
        ds2 ≠ [] → (∀ d ∈ ds2, d.isDigit = true) → pre.length ≤ pre2.length) :=
  parseRubric_spec.2.1 ("Essay (40%)".toList) ⟨"Essay".toList, 40⟩ (by decide)

/-! ### The grading fallback score

The catch branch of gradeCriterion computes Math.floor of the product of
maxScore with the literal 0.7.  That product is IEEE double arithmetic, so
it is modelled bit-exactly: 0.7 is not representable and its nearest double
is sig07 scaled by 2 to the minus 52, slightly below seven tenths, and the
product is rounded to 53 significant bits with ties to even before the
floor is taken.  At maxScore = 90 this makes the result 62 although the
exact value of seven tenths of 90 is 63. -/

/-- The integer significand of the IEEE double nearest to 0.7: the double is
sig07 scaled by 2 to the minus 52. -/
def sig07 : Nat := 3152519739159347

/-- Fuel-driven bit length so that the kernel can evaluate it: bitLenAux f n
is the length of the binary representation of n as long as f is at least
that length, and the fuel argument only bounds the recursion. -/
def bitLenAux : Nat → Nat → Nat
  | 0, _ => 0
  | fuel + 1, n => if n = 0 then 0 else bitLenAux fuel (n / 2) + 1

/-- Number of binary digits of n. -/
def bitLen (n : Nat) : Nat := bitLenAux n n

/-- Math.floor of the IEEE double product of the natural number n (exactly
representable below 2 to the 53) with the double nearest to 0.7.  The exact
product is N scaled by 2 to the minus 52; when N needs more than 53 bits it
is rounded to nearest with ties to even at 53 significant bits, and the
floor of the rounded value is returned. -/
def floorMul07 (n : Nat) : Nat :=
  let N := n * sig07
  let b := bitLen N
  if b ≤ 53 then N / 2 ^ 52
  else
    let s := b - 53
    let q := N / 2 ^ s
    let r := N % 2 ^ s
    let h := 2 ^ (s - 1)
    let M := if h < r ∨ (r = h ∧ q % 2 = 1) then q + 1 else q
    M / 2 ^ (52 - s)

/-! ### gradeCriterion -/

/-- Outcome of one call of callAIAPIWithFile: either the text of the model
response, or a thrown error carrying its message (network failure, missing
configuration, non-ok status, or malformed response body). -/
inductive APICall where
  | ok (response : Str)
  | fail (message : Str)
deriving DecidableEq

/-- Return value of gradeCriterion: a score and a feedback string. -/
structure GradeOut where
  score : Nat
  feedback : Str
deriving DecidableEq

/-- Message of the error thrown when the response has no score line. -/
def noScoreMsg : Str := "AI response did not contain a valid score".toList

/-- Message of the error thrown when the parsed score is out of range. -/
def badScoreMsg : Str := "AI response contained an invalid score".toList

/-- The feedback string fabricated by the catch branch of gradeCriterion. -/
def fallbackFeedback (msg : Str) : Str :=
  "Unable to perform AI grading: ".toList ++ msg ++ ". Please review manually.".toList

/-- Case-insensitive match of the pattern string at the head of the input,
returning the remainder on success. -/
def dropCI : Str → Str → Option Str
  | [], cs => some cs
  | _ :: _, [] => none
  | p :: ps, c :: cs => if c.toLower = p.toLower then dropCI ps cs else none

/-- The literal part of the score regex. -/
def scoreKey : Str := "SCORE:".toList

/-- Attempt of the score regex at the head of the string: the literal SCORE
and colon case-insensitively, optional whitespace, then a nonempty greedy
run of decimal digits, whose decimal value is returned. -/
def scoreAt (cs : Str) : Option Nat :=
  match dropCI scoreKey cs with
  | none => none
  | some rest =>
    let ds := (rest.dropWhile isJsWs).takeWhile Char.isDigit
    if ds = [] then none else some (decimalVal ds)

/-- Leftmost match of the score regex over the whole response text, as
performed by response.match in gradeCriterion, with the parsed score. -/
def findScore : Str → Option Nat
  | [] => none
  | c :: cs =>
    match scoreAt (c :: cs) with
    | some n => some n
    | none => findScore cs

/-- gradeCriterion from the source, with the API call outcome passed as an
argument.  The prompt construction is absorbed into the oracle; the
response is parsed for the score line; a missing or out-of-range score
raises an error caught by the same catch branch as API failures, which
fabricates the fallback score and an explanatory feedback instead of
propagating anything.  The parsed score is a decimal-digit run, so the
isNaN and negativity checks of the source can never fire; only the upper
bound check remains reachable. -/
def gradeCriterion (call : APICall) (maxScore : Nat) : GradeOut :=
  match call with
  | APICall.fail msg => ⟨floorMul07 maxScore, fallbackFeedback msg⟩
  | APICall.ok response =>
    match findScore response with
    | none => ⟨floorMul07 maxScore, fallbackFeedback noScoreMsg⟩
    | some score =>
      if maxScore < score then ⟨floorMul07 maxScore, fallbackFeedback badScoreMsg⟩
      else ⟨score, response⟩

set_option maxRecDepth 4000 in
/-- C2 (amended).  gradeCriterion never propagates a failure and never
retries: on a thrown API call, on a response with no score match, and on a
parsed score exceeding maxScore it returns the fallback built from
Math.floor of the IEEE product of maxScore and 0.7 together with an
explanatory feedback string; otherwise it returns the parsed score with the
full response as feedback.  The final conjuncts locate the amendment: the
IEEE fallback equals the integer floor of seven tenths of maxScore for
every maxScore up to 100 except 90, where it is 62 rather than 63. -/
theorem gradeCriterion_spec :
    (∀ msg maxScore, gradeCriterion (APICall.fail msg) maxScore =
      ⟨floorMul07 maxScore, fallbackFeedback msg⟩) ∧
    (∀ r maxScore, findScore r = none → gradeCriterion (APICall.ok r) maxScore =
      ⟨floorMul07 maxScore, fallbackFeedback noScoreMsg⟩) ∧
    (∀ r maxScore s, findScore r = some s → maxScore < s →
      gradeCriterion (APICall.ok r) maxScore =
        ⟨floorMul07 maxScore, fallbackFeedback badScoreMsg⟩) ∧
    (∀ r maxScore s, findScore r = some s → s ≤ maxScore →
      gradeCriterion (APICall.ok r) maxScore = ⟨s, r⟩) ∧
    (∀ n, n ≤ 100 → n ≠ 90 → floorMul07 n = 7 * n / 10) ∧
    floorMul07 90 = 62 := by
  refine ⟨fun msg maxScore => rfl, ?_, ?_, ?_, ?_, by decide⟩
  · intro r maxScore h
    rw [gradeCriterion, h]
  · intro r maxScore s h hlt
    simp only [gradeCriterion, h]
    rw [if_pos hlt]
  · intro r maxScore s h hle
    simp only [gradeCriterion, h]
    rw [if_neg (Nat.not_lt.mpr hle)]
  · decide

/-- C2 counterexample.  At maxScore = 90 the fallback score of the catch
branch is 62, while the floor of the exact product of 90 with seven tenths
is 63: the IEEE product of 90 with the double nearest 0.7 rounds just below
63. -/
theorem gradeCriterion_fallback_cex :
    (gradeCriterion (APICall.fail []) 90).score = 62 ∧ 7 * 90 / 10 = 63 ∧ (62 : Nat) ≠ 63 := by
  decide

/-- C2 witness: the in-range branch applied to a concrete response. -/
theorem gradeCriterion_spec_witness :
    gradeCriterion (APICall.ok ("SCORE: 35\nGood work".toList)) 50 =
      ⟨35, "SCORE: 35\nGood work".toList⟩ :=
  gradeCriterion_spec.2.2.2.1 ("SCORE: 35\nGood work".toList) 50 35 (by decide) (by decide)

/-! ### processStudentAnswers -/

/-- An uploaded file: its name and its contents (the contents only matter
through the API oracle). -/
structure SFile where
  name : Str
  content : Str
deriving DecidableEq

/-- One entry of the criteria array assembled per file. -/
structure CriterionResult where
  name : Str
  score : Nat
  maxScore : Nat
  feedback : Str
deriving DecidableEq

/-- The score field of a grading result as a JS number: the division of the
score sum by the maxScore sum yields NaN when both sums are zero and
positive infinity when only the divisor is, and Math.round passes both
through; otherwise the value is an integer. -/
inductive TotalScore where
  | nan
  | inf
  | val (n : Int)
deriving DecidableEq

/-- Math.round on a finite nonnegative rational: the floor of the value
plus one half (Math.round rounds half-integers up). -/
def jsRound (q : ℚ) : Int := Int.floor (q + 1 / 2)

/-- Sum of the per-criterion scores, the first reduce of the source. -/
def sumScores (rs : List CriterionResult) : Nat :=
  (rs.map CriterionResult.score).sum

/-- Sum of the per-criterion maxScores, the second reduce of the source. -/
def sumMax (rs : List CriterionResult) : Nat :=
  (rs.map CriterionResult.maxScore).sum

/-- Math.round of the score ratio times 100, from processStudentAnswers,
with zero divisors producing the JS special values. -/
def totalScore (rs : List CriterionResult) : TotalScore :=
  if sumMax rs = 0 then
    (if sumScores rs = 0 then TotalScore.nan else TotalScore.inf)
  else
    TotalScore.val (jsRound ((sumScores rs : ℚ) / (sumMax rs : ℚ) * 100))

/-- The overall feedback ladder of the source.  JS comparisons with NaN are
false, so a NaN total falls through every threshold; infinity passes the
first. -/
def overallFeedback (t : TotalScore) : Str :=
  match t with
  | TotalScore.val n =>
    if 80 ≤ n then "Excellent work overall!".toList
    else if 60 ≤ n then "Good work with room for improvement.".toList
    else if 40 ≤ n then "Needs significant improvement.".toList
    else "Requires extensive revision.".toList
  | TotalScore.inf => "Excellent work overall!".toList
  | TotalScore.nan => "Requires extensive revision.".toList

/-- One grading result, as assembled per uploaded file. -/
structure GradingResult where
  id : Str
  name : Str
  score : TotalScore
  feedback : Str
  criteria : List CriterionResult
deriving DecidableEq

/-- The id template of the source: the literal student prefix, the
Date.now() string and the Math.random() suffix. -/
def mkId (stamp rnd : Str) : Str :=
  "student-".toList ++ stamp ++ "-".toList ++ rnd

/-- file.name.replace with the final-extension regex: remove a final dot
followed by a nonempty run of characters that are neither dots nor slashes,
anchored at the end of the name; otherwise leave the name unchanged. -/
def stripExt (cs : Str) : Str :=
  let ext := cs.reverse.takeWhile (fun c => !(c == '.' || c == '/'))
  match cs.reverse.dropWhile (fun c => !(c == '.' || c == '/')) with
  | '.' :: rest => if ext = [] then cs else rest.reverse
  | _ => cs

/-- The Promise.all fan-out of processStudentAnswers: one gradeCriterion
call per rubric criterion, each with the criterion weight as maxScore, the
results collected in criteria order.  The api oracle gives the outcome of
the underlying API call for a file, criterion name and maxScore. -/
def gradeFile (api : SFile → Str → Nat → APICall) (criteria : List Criterion)
    (f : SFile) : List CriterionResult :=
  criteria.map (fun c =>
    let out := gradeCriterion (api f c.name c.weight) c.weight
    ⟨c.name, out.score, c.weight, out.feedback⟩)

/-- The body of the per-file loop of processStudentAnswers.  The gen oracle
returns the Date.now() string and the Math.random() suffix drawn in
iteration k. -/
def mkResult (api : SFile → Str → Nat → APICall) (gen : Nat → Str × Str)
    (criteria : List Criterion) (k : Nat) (f : SFile) : GradingResult :=
  let rs := gradeFile api criteria f
  ⟨mkId (gen k).1 (gen k).2, stripExt f.name, totalScore rs,
    overallFeedback (totalScore rs), rs⟩

/-- The per-file loop of processStudentAnswers, pushing one result per file
in input order. -/
def processGo (api : SFile → Str → Nat → APICall) (gen : Nat → Str × Str)
    (criteria : List Criterion) : Nat → List SFile → List GradingResult
  | _, [] => []
  | k, f :: fs => mkResult api gen criteria k f :: processGo api gen criteria (k + 1) fs

/-- processStudentAnswers from the source: parse the rubric once, then
iterate over the student files. -/
def processStudentAnswers (api : SFile → Str → Nat → APICall) (gen : Nat → Str × Str)
    (files : List SFile) (rubricText : Str) : List GradingResult :=
  processGo api gen (parseRubric rubricText) 0 files

theorem processGo_length (api : SFile → Str → Nat → APICall) (gen : Nat → Str × Str)
    (criteria : List Criterion) :
    ∀ (fs : List SFile) (k : Nat), (processGo api gen criteria k fs).length = fs.length
  | [], _ => rfl
  | _ :: fs, k => by
    rw [processGo, List.length_cons, List.length_cons,
      processGo_length api gen criteria fs (k + 1)]

theorem processGo_getElem (api : SFile → Str → Nat → APICall) (gen : Nat → Str × Str)
    (criteria : List Criterion) :
    ∀ (fs : List SFile) (k j : Nat),
      (processGo api gen criteria k fs)[j]? =
        (fs[j]?).map (mkResult api gen criteria (k + j))
  | [], _, _ => by simp [processGo]
  | f :: fs, k, 0 => by simp [processGo]
  | f :: fs, k, j + 1 => by
    rw [processGo]
    simp only [List.getElem?_cons_succ]
    rw [processGo_getElem api gen criteria fs (k + 1) j]
    have h : k + 1 + j = k + (j + 1) := by omega
    rw [h]

/-- C4.  processStudentAnswers returns exactly one result per uploaded
file, in input order: entry j exists precisely when file j does, and it is
the loop body applied to file j.  The loop body gives the result the name
of the file with its final extension stripped, the id built from the
timestamp and random string drawn in that iteration, and criteria results
in rubric order (same names and, as maxScores, same weights as the parsed
rubric).  Ids built from different timestamp strings of equal length always
differ, so they are not stable across runs. -/
theorem process_shape_spec :
    (∀ api gen files text,
      (processStudentAnswers api gen files text).length = files.length) ∧
    (∀ api gen files text j,
      (processStudentAnswers api gen files text)[j]? =
        (files[j]?).map (mkResult api gen (parseRubric text) j)) ∧
    (∀ api gen criteria k f,
      (mkResult api gen criteria k f).id = mkId (gen k).1 (gen k).2 ∧
      (mkResult api gen criteria k f).name = stripExt f.name ∧
      (mkResult api gen criteria k f).criteria.map CriterionResult.name =
        criteria.map Criterion.name ∧
      (mkResult api gen criteria k f).criteria.map CriterionResult.maxScore =
        criteria.map Criterion.weight) ∧
    (∀ s1 s2 r1 r2, s1.length = s2.length → s1 ≠ s2 → mkId s1 r1 ≠ mkId s2 r2) := by
  refine ⟨?_, ?_, ?_, ?_⟩
  · intro api gen files text
    exact processGo_length api gen (parseRubric text) files 0
  · intro api gen files text j
    rw [processStudentAnswers, processGo_getElem api gen (parseRubric text) files 0 j,
      Nat.zero_add]
  · intro api gen criteria k f
    refine ⟨rfl, rfl, ?_, ?_⟩
    · rw [mkResult]
      simp [gradeFile, List.map_map, Function.comp_def]
    · rw [mkResult]
      simp [gradeFile, List.map_map, Function.comp_def]
  · intro s1 s2 r1 r2 hlen hne heq
    rw [mkId, mkId] at heq
    simp only [List.append_assoc] at heq
    exact hne (List.append_inj_left (List.append_cancel_left heq) hlen)

/-- C4 witness: ids from distinct equal-length timestamps differ. -/
theorem process_shape_witness :
    mkId ("1700000000001".toList) ("abc".toList) ≠ mkId ("1700000000002".toList) ("abc".toList) :=
  process_shape_spec.2.2.2 ("1700000000001".toList) ("1700000000002".toList)
    ("abc".toList) ("abc".toList) (by decide) (by decide)

/-- Constant oracle that makes every API call fail with an empty message. -/
def apiFail0 : SFile → Str → Nat → APICall := fun _ _ _ => APICall.fail []

/-- Constant timestamp and random oracle. -/
def genZero : Nat → Str × Str := fun _ => ([], [])

/-- A concrete uploaded file. -/
def file0 : SFile := ⟨"answer.png".toList, "scanned".toList⟩

/-- C3 (amended).  For every produced grading result whose criteria list is
nonempty and whose maxScores do not sum to zero, the reported total is
Math.round of 100 times the ratio of the score sum to the maxScore sum, and
the per-criterion maxScores are the parsed rubric weights.  The nonzero-sum
hypothesis is the amendment: with a rubric whose matched weights are all
zero the criteria are nonempty yet the division is zero by zero and the
total is NaN. -/
theorem totalScore_weighted_spec :
    ∀ (api : SFile → Str → Nat → APICall) (gen : Nat → Str × Str)
      (files : List SFile) (text : Str) (j : Nat) (r : GradingResult),
      (processStudentAnswers api gen files text)[j]? = some r →
      r.criteria ≠ [] → sumMax r.criteria ≠ 0 →
      r.score = TotalScore.val
        (jsRound (100 * (sumScores r.criteria : ℚ) / (sumMax r.criteria : ℚ))) ∧
      r.criteria.map CriterionResult.maxScore = (parseRubric text).map Criterion.weight := by
  intro api gen files text j r hget hne hsum
  rw [processStudentAnswers, processGo_getElem api gen (parseRubric text) files 0 j] at hget
  rcases hf : files[j]? with _ | f
  · rw [hf] at hget
    simp at hget
  · rw [hf] at hget
    simp only [Option.map_some', Option.some.injEq] at hget
    constructor
    · have hscore : r.score = totalScore r.criteria := by
        rw [← hget, mkResult]
      rw [hscore, totalScore, if_neg hsum]
      have harith : (sumScores r.criteria : ℚ) / (sumMax r.criteria : ℚ) * 100 =
          100 * (sumScores r.criteria : ℚ) / (sumMax r.criteria : ℚ) := by
        ring
      rw [harith]
    · rw [← hget, mkResult]
      simp [gradeFile, List.map_map, Function.comp_def]

/-- Rubric whose only matched weight is zero. -/
def zeroRubric : Str := "A (0%)".toList

/-- C3 counterexample.  With the rubric line of weight zero the produced
result has one criteria entry, yet its total score is NaN: the sum of
maxScores is zero, the sums divide to NaN, and Math.round propagates it, so
the total is not Math.round of a weight-normalised percentage. -/
theorem totalScore_zeroWeights_cex :
    (processStudentAnswers apiFail0 genZero [file0] zeroRubric).map GradingResult.score =
      [TotalScore.nan] ∧
    (processStudentAnswers apiFail0 genZero [file0] zeroRubric).map
      (fun r => r.criteria.length) = [1] := by
  decide

/-- The single result produced in the C3 witness run. -/
def result5050 : GradingResult :=
  mkResult apiFail0 genZero (parseRubric ("A (50%)\nB (50%)".toList)) 0 file0

/-- C3 witness: the amended statement applied to a concrete run with two
criteria of weight 50 whose API calls fail, so both scores fall back to 35
and the total is Math.round of 100 times 70 over 100. -/
theorem totalScore_weighted_witness :
    result5050.score = TotalScore.val
      (jsRound (100 * (sumScores result5050.criteria : ℚ) / (sumMax result5050.criteria : ℚ))) ∧
    result5050.criteria.map CriterionResult.maxScore =
      (parseRubric ("A (50%)\nB (50%)".toList)).map Criterion.weight :=
  totalScore_weighted_spec apiFail0 genZero [file0] ("A (50%)\nB (50%)".toList) 0 result5050
    rfl (by decide) (by decide)

/-- C9.  When no rubric line matches, processStudentAnswers still returns
one result per file, and each result has an empty criteria list and a NaN
total score: both reduces are over the empty array, the division is zero by
zero, and Math.round passes the NaN through unguarded. -/
theorem process_empty_rubric_spec :
    ∀ api gen files text, parseRubric text = [] →
      (processStudentAnswers api gen files text).length = files.length ∧
      ∀ (j : Nat) (r : GradingResult),
        (processStudentAnswers api gen files text)[j]? = some r →
        r.criteria = [] ∧ r.score = TotalScore.nan := by
  intro api gen files text hempty
  refine ⟨processGo_length api gen (parseRubric text) files 0, ?_⟩
  intro j r hget
  rw [processStudentAnswers, processGo_getElem api gen (parseRubric text) files 0 j] at hget
  rcases hf : files[j]? with _ | f
  · rw [hf] at hget
    simp at hget
  · rw [hf] at hget
    simp only [Option.map_some', Option.some.injEq] at hget
    have hcrit : r.criteria = [] := by
      rw [← hget, mkResult, hempty]
      rfl
    refine ⟨hcrit, ?_⟩
    have hscore : r.score = totalScore r.criteria := by
      rw [← hget, mkResult]
    rw [hscore, hcrit]
    rfl

/-- The single result produced in the C9 witness run. -/
def resultNoRubric : GradingResult :=
  mkResult apiFail0 genZero (parseRubric ("no criteria in this text".toList)) 0 file0

/-- C9 witness: a concrete run whose rubric text matches no line. -/
theorem process_empty_rubric_witness :
    resultNoRubric.criteria = [] ∧ resultNoRubric.score = TotalScore.nan :=
  (process_empty_rubric_spec apiFail0 genZero [file0] ("no criteria in this text".toList)
    (by decide)).2 0 resultNoRubric rfl

/-! ### The grading page form -/

/-- The component state consulted by handleSubmit on the grading page. -/
structure GradingForm where
  subject : Option Str
  studentFiles : List SFile
  rubricFile : Option SFile
  useTemplateRubric : Bool
deriving DecidableEq

/-- A toast notification: title, description and whether the destructive
variant was requested. -/
structure Toast where
  title : Str
  description : Str
  destructive : Bool
deriving DecidableEq

/-- Observable outcome of handleSubmit: either an early return showing a
single toast, or the grading-started path, which shows the success toast
and navigates to the results route.  No navigation and no grading happen on
the rejected outcome, which carries no route by construction. -/
inductive SubmitOutcome where
  | rejected (t : Toast)
  | started (success : Toast) (navTarget : Str)
deriving DecidableEq

/-- The toast shown when no subject is selected. -/
def subjectToast : Toast :=
  ⟨"Subject required".toList, "Please select a subject for grading".toList, true⟩

/-- The toast shown when no student files are uploaded. -/
def filesToast : Toast :=
  ⟨"Student files required".toList,
    "Please upload at least one student answer file".toList, true⟩

/-- The toast shown when neither a rubric file nor the template is chosen. -/
def rubricToast : Toast :=
  ⟨"Rubric required".toList, "Please either upload a rubric or use a template".toList, true⟩

/-- The toast shown when grading starts. -/
def startToast : Toast :=
  ⟨"Grading started".toList,
    "Your files have been uploaded and grading has begun".toList, false⟩

/-- The mock results route the success path navigates to, from the session
template literal with the Date.now() string. -/
def resultsRoute (stamp : Str) : Str :=
  "/grading/results/session-".toList ++ stamp

/-- handleSubmit from the grading page, with the Date.now() string of the
success path as an oracle argument.  The awaited two-second timeout cannot
reject, so the catch branch of the source is unreachable and is not
modelled. -/
def handleSubmit (form : GradingForm) (stamp : Str) : SubmitOutcome :=
  if form.subject.isNone then SubmitOutcome.rejected subjectToast
  else if form.studentFiles.isEmpty then SubmitOutcome.rejected filesToast
  else if !form.rubricFile.isSome && !form.useTemplateRubric then
    SubmitOutcome.rejected rubricToast
  else SubmitOutcome.started startToast (resultsRoute stamp)

/-- The conjunction of the three validations of handleSubmit. -/
def validForm (form : GradingForm) : Bool :=
  form.subject.isSome && !form.studentFiles.isEmpty &&
    (form.rubricFile.isSome || form.useTemplateRubric)

/-- C5.  handleSubmit returns early with a single destructive toast naming
the missing field when no subject is selected, when no student files are
uploaded, or when neither a rubric file nor the template option is chosen,
in that order; a rejected outcome carries no navigation target and starts
nothing.  The grading-started path, with its success toast and navigation
to the results route, is reached exactly when all three validations
pass. -/
theorem handleSubmit_spec :
    (∀ form stamp, form.subject = none →
      handleSubmit form stamp = SubmitOutcome.rejected subjectToast) ∧
    (∀ form stamp, form.subject ≠ none → form.studentFiles = [] →
      handleSubmit form stamp = SubmitOutcome.rejected filesToast) ∧
    (∀ form stamp, form.subject ≠ none → form.studentFiles ≠ [] →
      form.rubricFile = none → form.useTemplateRubric = false →
      handleSubmit form stamp = SubmitOutcome.rejected rubricToast) ∧
    (∀ form stamp t, handleSubmit form stamp = SubmitOutcome.rejected t →
      t.destructive = true) ∧
    (∀ form stamp s nav, handleSubmit form stamp = SubmitOutcome.started s nav →
      validForm form = true) ∧
    (∀ form stamp, validForm form = true →
      handleSubmit form stamp = SubmitOutcome.started startToast (resultsRoute stamp)) := by
  refine ⟨?_, ?_, ?_, ?_, ?_, ?_⟩
  · intro form stamp h
    rw [handleSubmit, if_pos (by simp [h])]
  · intro form stamp h1 h2
    rw [handleSubmit, if_neg (by simp [Option.isNone_iff_eq_none, h1]),
      if_pos (by simp [h2])]
  · intro form stamp h1 h2 h3 h4
    rw [handleSubmit, if_neg (by simp [Option.isNone_iff_eq_none, h1]),
      if_neg (by simp [List.isEmpty_iff, h2]), if_pos (by simp [h3, h4])]
  · intro form stamp t h
    rcases form with ⟨subj, sfiles, rub, tmpl⟩
    cases subj <;> cases rub <;> cases tmpl <;> cases sfiles <;>
      simp_all [handleSubmit] <;> (cases h; rfl)
  · intro form stamp s nav h
    rcases form with ⟨subj, sfiles, rub, tmpl⟩
    cases subj <;> cases rub <;> cases tmpl <;> cases sfiles <;>
      simp_all [handleSubmit, validForm]
  · intro form stamp h
    rcases form with ⟨subj, sfiles, rub, tmpl⟩
    cases subj <;> cases rub <;> cases tmpl <;> cases sfiles <;>
      simp_all [handleSubmit, validForm]

/-- C5 witness: the subject validation applied to a concrete empty form. -/
theorem handleSubmit_witness :
    handleSubmit ⟨none, [], none, false⟩ [] = SubmitOutcome.rejected subjectToast :=
  handleSubmit_spec.1 ⟨none, [], none, false⟩ [] rfl

/-! ### The authentication context

The auth module keeps a react user state and touches localStorage.  Each
operation is modelled as a pure function from the store to its outcome (a
possibly thrown error message), an update of the user state, the new store,
and the trace of storage operations it performed, in order.  JSON round
trips are the identity on the structured values. -/

/-- The public user shape: no password field. -/
structure User where
  id : Str
  name : Str
  email : Str
deriving DecidableEq

/-- The stored user shape: the public fields plus the plaintext password. -/
structure StoredUser where
  id : Str
  name : Str
  email : Str
  password : Str
deriving DecidableEq

/-- Values the react user state can hold: the full user object written by
register and the initial load, or the email-only object literal that login
builds. -/
inductive SessionUser where
  | full (u : User)
  | emailOnly (email : Str)
deriving DecidableEq

/-- Structured values stored in localStorage by this app: the JSON array of
stored users, the JSON object of the current user, or any other string. -/
inductive StoreVal where
  | usersVal (us : List StoredUser)
  | userVal (u : User)
  | rawVal (s : Str)
deriving DecidableEq

/-- localStorage, keyed by strings. -/
abbrev Store := List (Str × StoreVal)

/-- localStorage.getItem. -/
def lookupKey : Store → Str → Option StoreVal
  | [], _ => none
  | (k, v) :: st, key => if k = key then some v else lookupKey st key

/-- localStorage.setItem: replace the binding when the key is present,
append it otherwise. -/
def setKey : Store → Str → StoreVal → Store
  | [], key, v => [(key, v)]
  | (k, w) :: st, key, v =>
    if k = key then (key, v) :: st else (k, w) :: setKey st key v

/-- localStorage.removeItem. -/
def removeKey : Store → Str → Store
  | [], _ => []
  | (k, w) :: st, key =>
    if k = key then removeKey st key else (k, w) :: removeKey st key

/-- One localStorage access, as recorded in the traces. -/
inductive StorageOp where
  | getOp (key : Str)
  | setOp (key : Str) (v : StoreVal)
  | removeOp (key : Str)
deriving DecidableEq

/-- The key an access touches. -/
def StorageOp.key : StorageOp → Str
  | StorageOp.getOp k => k
  | StorageOp.setOp k _ => k
  | StorageOp.removeOp k => k

/-- The USERS_STORAGE_KEY constant. -/
def usersKey : Str := "fairgrade_users".toList

/-- The current-user key literal. -/
def currentUserKey : Str := "current_user".toList

/-- getStoredUsers: read the users key and parse it, the empty array when
the key is absent.  A value of another shape under the key would make the
JS code throw at JSON.parse or at the later array method; it is modelled as
the empty array and excluded by usersKeyWellTyped where it matters. -/
def getStoredUsers (st : Store) : List StoredUser × List StorageOp :=
  (match lookupKey st usersKey with
   | some (StoreVal.usersVal us) => us
   | some _ => []
   | none => [],
   [StorageOp.getOp usersKey])

/-- The users key holds a users array when it holds anything. -/
def usersKeyWellTyped (st : Store) : Bool :=
  match lookupKey st usersKey with
  | some (StoreVal.usersVal _) => true
  | some _ => false
  | none => true

/-- saveUsers: stringify the array under the users key. -/
def saveUsers (st : Store) (us : List StoredUser) : Store × List StorageOp :=
  (setKey st usersKey (StoreVal.usersVal us),
   [StorageOp.setOp usersKey (StoreVal.usersVal us)])

/-- Result of one auth operation: the thrown error message or unit, the
assignment to the react user state when setUser was called, the store after
the operation, and the trace of storage accesses. -/
structure AuthStep where
  outcome : Except Str Unit
  userUpdate : Option (Option SessionUser)
  store : Store
  trace : List StorageOp

/-- The initial-load effect of AuthProvider: read the current-user key and,
when present, set the user to the parsed value.  The parsed value itself is
returned; no write happens. -/
def initAuth (st : Store) : Option StoreVal × List StorageOp :=
  (lookupKey st currentUserKey, [StorageOp.getOp currentUserKey])

/-- login from the source: the business logic is an unimplemented TODO, so
it only sets the user state to the email-only object literal.  It reads and
writes no storage, never throws, and never looks at the password. -/
def login (st : Store) (email _password : Str) : AuthStep :=
  ⟨Except.ok (), some (some (SessionUser.emailOnly email)), st, []⟩

/-- The id template of register, with the Math.random() suffix as oracle. -/
def userId (randId : Str) : Str := "user-".toList ++ randId

/-- The message of the duplicate-email error. -/
def dupEmailMsg : Str := "Email already registered".toList

/-- register from the source: read the stored users; throw on a duplicate
email before anything is written; otherwise append the new user with the
plaintext password, save the array, and set both the react state and the
current-user key to the user object with the password field removed. -/
def register (st : Store) (name email password randId : Str) : AuthStep :=
  let users := (getStoredUsers st).1
  let t1 := (getStoredUsers st).2
  if users.any (fun u => u.email == email) then
    ⟨Except.error dupEmailMsg, none, st, t1⟩
  else
    let newUser : StoredUser := ⟨userId randId, name, email, password⟩
    let saved := saveUsers st (users ++ [newUser])
    let userData : User := ⟨newUser.id, newUser.name, newUser.email⟩
    ⟨Except.ok (), some (some (SessionUser.full userData)),
      setKey saved.1 currentUserKey (StoreVal.userVal userData),
      t1 ++ saved.2 ++ [StorageOp.setOp currentUserKey (StoreVal.userVal userData)]⟩

/-- logout from the source: clear the react state and remove the
current-user key. -/
def logout (st : Store) : AuthStep :=
  ⟨Except.ok (), some none, removeKey st currentUserKey,
   [StorageOp.removeOp currentUserKey]⟩

theorem lookup_setKey_same : ∀ (st : Store) (k : Str) (v : StoreVal),
    lookupKey (setKey st k v) k = some v
  | [], k, v => by simp [setKey, lookupKey]
  | (k0, w) :: st, k, v => by
    rw [setKey]
    by_cases h : k0 = k
    · rw [if_pos h, lookupKey, if_pos rfl]
    · rw [if_neg h, lookupKey, if_neg h]
      exact lookup_setKey_same st k v

theorem lookup_setKey_ne : ∀ (st : Store) (k k2 : Str) (v : StoreVal), k2 ≠ k →
    lookupKey (setKey st k v) k2 = lookupKey st k2
  | [], k, k2, v, hne => by
    rw [setKey]
    show (if k = k2 then some v else lookupKey [] k2) = lookupKey [] k2
    rw [if_neg (fun h => hne h.symm)]
  | (k0, w) :: st, k, k2, v, hne => by
    rw [setKey]
    by_cases h : k0 = k
    · subst h
      rw [if_pos rfl, lookupKey, lookupKey, if_neg (fun hh => hne hh.symm),
        if_neg (fun hh => hne hh.symm)]
    · rw [if_neg h, lookupKey, lookupKey]
      by_cases hk : k0 = k2
      · rw [if_pos hk, if_pos hk]
      · rw [if_neg hk, if_neg hk]
        exact lookup_setKey_ne st k k2 v hne

/-- C6.  Every storage access performed by the auth layer, the initial load
of AuthProvider, getStoredUsers, saveUsers, login, register (both branches)
and logout, touches only the two keys fairgrade_users and current_user. -/
theorem auth_storage_keys_spec :
    (∀ st : Store, ∀ op ∈ (initAuth st).2,
      op.key = usersKey ∨ op.key = currentUserKey) ∧
    (∀ st : Store, ∀ op ∈ (getStoredUsers st).2,
      op.key = usersKey ∨ op.key = currentUserKey) ∧
    (∀ (st : Store) (us : List StoredUser), ∀ op ∈ (saveUsers st us).2,
      op.key = usersKey ∨ op.key = currentUserKey) ∧
    (∀ (st : Store) (e p : Str), ∀ op ∈ (login st e p).trace,
      op.key = usersKey ∨ op.key = currentUserKey) ∧
    (∀ (st : Store) (n e p rid : Str), ∀ op ∈ (register st n e p rid).trace,
      op.key = usersKey ∨ op.key = currentUserKey) ∧
    (∀ st : Store, ∀ op ∈ (logout st).trace,
      op.key = usersKey ∨ op.key = currentUserKey) := by
  refine ⟨?_, ?_, ?_, ?_, ?_, ?_⟩
  · intro st op hop
    simp only [initAuth, List.mem_singleton] at hop
    subst hop
    right
    rfl
  · intro st op hop
    simp only [getStoredUsers, List.mem_singleton] at hop
    subst hop
    left
    rfl
  · intro st us op hop
    simp only [saveUsers, List.mem_singleton] at hop
    subst hop
    left
    rfl
  · intro st e p op hop
    simp only [login, List.not_mem_nil] at hop
  · intro st n e p rid op hop
    rw [register] at hop
    by_cases h : ((getStoredUsers st).1).any (fun u => u.email == e)
    · rw [if_pos h] at hop
      simp only [getStoredUsers, List.mem_singleton] at hop
      subst hop
      left
      rfl
    · rw [if_neg h] at hop
      simp only [getStoredUsers, saveUsers, List.mem_append,
        List.mem_singleton] at hop
      rcases hop with (hop | hop) | hop
      · subst hop; left; rfl
      · subst hop; left; rfl
      · subst hop; right; rfl
  · intro st op hop
    simp only [logout, List.mem_singleton] at hop
    subst hop
    right
    rfl

/-- C6 witness: the initial-load access on the empty store. -/
theorem auth_storage_keys_witness :
    (StorageOp.getOp currentUserKey).key = usersKey ∨
    (StorageOp.getOp currentUserKey).key = currentUserKey :=
  auth_storage_keys_spec.1 [] (StorageOp.getOp currentUserKey) (by decide)

/-- C7.  A successful register call (no stored user has the given email,
and the users key is well typed so the JS call indeed succeeds) appends to
the stored users array exactly the new record carrying the password as
supplied, unhashed, and writes under the current-user key the object with
only id, name and email, the password field removed; the react state gets
the same password-free object. -/
theorem register_plaintext_spec :
    ∀ (st : Store) (n e p rid : Str),
      usersKeyWellTyped st = true →
      ((getStoredUsers st).1.any (fun u => u.email == e)) = false →
      (register st n e p rid).outcome = Except.ok () ∧
      lookupKey (register st n e p rid).store usersKey =
        some (StoreVal.usersVal ((getStoredUsers st).1 ++ [⟨userId rid, n, e, p⟩])) ∧
      lookupKey (register st n e p rid).store currentUserKey =
        some (StoreVal.userVal ⟨userId rid, n, e⟩) ∧
      (register st n e p rid).userUpdate =
        some (some (SessionUser.full ⟨userId rid, n, e⟩)) := by
  intro st n e p rid hwt hdup
  have hcond : ¬(((getStoredUsers st).1.any (fun u => u.email == e)) = true) := by
    rw [hdup]
    exact Bool.false_ne_true
  rw [register, if_neg hcond]
  refine ⟨rfl, ?_, ?_, rfl⟩
  · show lookupKey (setKey (saveUsers st _).1 currentUserKey _) usersKey = _
    rw [lookup_setKey_ne _ currentUserKey usersKey _ (by decide)]
    exact lookup_setKey_same st usersKey _
  · exact lookup_setKey_same _ currentUserKey _

/-- C7 witness: a successful registration on the empty store. -/
theorem register_plaintext_witness :
    (register [] ("Ada".toList) ("ada@x".toList) ("pw".toList) ("r1".toList)).outcome =
      Except.ok () ∧
    lookupKey (register [] ("Ada".toList) ("ada@x".toList) ("pw".toList)
        ("r1".toList)).store usersKey =
      some (StoreVal.usersVal ((getStoredUsers ([] : Store)).1 ++
        [⟨userId ("r1".toList), "Ada".toList, "ada@x".toList, "pw".toList⟩])) ∧
    lookupKey (register [] ("Ada".toList) ("ada@x".toList) ("pw".toList)
        ("r1".toList)).store currentUserKey =
      some (StoreVal.userVal ⟨userId ("r1".toList), "Ada".toList, "ada@x".toList⟩) ∧
    (register [] ("Ada".toList) ("ada@x".toList) ("pw".toList) ("r1".toList)).userUpdate =
      some (some (SessionUser.full ⟨userId ("r1".toList), "Ada".toList, "ada@x".toList⟩)) :=
  register_plaintext_spec [] ("Ada".toList) ("ada@x".toList) ("pw".toList) ("r1".toList)
    (by decide) (by decide)

/-- C8.  login ignores its password argument entirely: calls with the same
email and any two passwords are identical in outcome, state update, store
and trace; it never throws, performs no storage access at all (in
particular it never consults the stored users array), and sets the user
state to the object containing only the email. -/
theorem login_password_independent :
    ∀ (st : Store) (email p1 p2 : Str),
      login st email p1 = login st email p2 ∧
      (login st email p1).outcome = Except.ok () ∧
      (login st email p1).trace = [] ∧
      (login st email p1).store = st ∧
      (login st email p1).userUpdate = some (some (SessionUser.emailOnly email)) :=
  fun _ _ _ _ => ⟨rfl, rfl, rfl, rfl, rfl⟩

/-- C10.  When a stored user already has the given email, register throws
the duplicate-email error, leaves the whole store (in particular the users
array and the current-user key) unchanged, performs only the initial read
(no write precedes the duplicate check), and does not touch the react user
state. -/
theorem register_duplicate_spec :
    ∀ (st : Store) (n e p rid : Str),
      ((getStoredUsers st).1.any (fun u => u.email == e)) = true →
      (register st n e p rid).outcome = Except.error dupEmailMsg ∧
      (register st n e p rid).store = st ∧
      (register st n e p rid).trace = [StorageOp.getOp usersKey] ∧
      (register st n e p rid).userUpdate = none := by
  intro st n e p rid hdup
  rw [register, if_pos hdup]
  exact ⟨rfl, rfl, rfl, rfl⟩

/-- A store already holding a registered user. -/
def dupStore : Store :=
  [(usersKey, StoreVal.usersVal
    [⟨"user-0".toList, "Eve".toList, "ada@x".toList, "pw0".toList⟩])]

/-- C10 witness: registering the already-present email on dupStore. -/
theorem register_duplicate_witness :
    (register dupStore ("Ada".toList) ("ada@x".toList) ("pw".toList)
      ("r1".toList)).outcome = Except.error dupEmailMsg ∧
    (register dupStore ("Ada".toList) ("ada@x".toList) ("pw".toList)
      ("r1".toList)).store = dupStore ∧
    (register dupStore ("Ada".toList) ("ada@x".toList) ("pw".toList)
      ("r1".toList)).trace = [StorageOp.getOp usersKey] ∧
    (register dupStore ("Ada".toList) ("ada@x".toList) ("pw".toList)
      ("r1".toList)).userUpdate = none :=
  register_duplicate_spec dupStore ("Ada".toList) ("ada@x".toList) ("pw".toList)
    ("r1".toList) (by decide)

end FairGrade
